import Mathlib

/-!
Verification of the Pyrr geometric library (quaternion.py, aambb.py,
ray.py) against its natural-language specification.

The embedding models double-precision numpy scalars as real numbers and
numpy arrays of shape (3,) / (4,) / (2,3) as Lean structures.  Python
functions that can raise are embedded as `Except PyError`.  Functions that
optionally write into a caller-supplied output buffer are embedded as
returning a pair: the Python return value (`Option` of the value, `none`
standing for Python's `None`) together with the final contents of the
written buffer.
-/

noncomputable section

/-- Python exception kinds raised by the embedded code. -/
inductive PyError
  | typeError
  | valueError
  | assertionError
deriving DecidableEq

/-- A numpy array of shape (3,): a 3D point or direction. -/
structure Vec3 where
  x : ℝ
  y : ℝ
  z : ℝ

/-- A numpy array of shape (4,): a quaternion (x, y, z, w), w scalar part. -/
structure Quat where
  x : ℝ
  y : ℝ
  z : ℝ
  w : ℝ

/-- A numpy array of shape (2,3): row 0 the minimum extent, row 1 the
maximum extent of an axis-aligned box. -/
structure Aabb where
  lo : Vec3
  hi : Vec3

/-- A numpy array of shape (2,3): row 0 the ray origin, row 1 its
direction (ray.py, `class index`). -/
structure Ray where
  origin : Vec3
  direction : Vec3

/-- Componentwise vector addition (numpy `+` on shape (3,)). -/
def vadd (a b : Vec3) : Vec3 := ⟨a.x + b.x, a.y + b.y, a.z + b.z⟩

/-- Vector times scalar (numpy `*` broadcasting a scalar). -/
def vsmul (v : Vec3) (s : ℝ) : Vec3 := ⟨v.x * s, v.y * s, v.z * s⟩

/-- Componentwise absolute value (numpy.absolute on a row). -/
def vabs (v : Vec3) : Vec3 := ⟨|v.x|, |v.y|, |v.z|⟩

/-- Componentwise maximum of two rows (used to embed numpy.amax). -/
def vmax (a b : Vec3) : Vec3 := ⟨max a.x b.x, max a.y b.y, max a.z b.z⟩

namespace vector

/-- Modelled from the spec: `vector.length` on a 3-component vector
(vector.py is not under src/) — the Euclidean length. -/
def length (v : Vec3) : ℝ := Real.sqrt (v.x ^ 2 + v.y ^ 2 + v.z ^ 2)

/-- Modelled from the spec: `vector.squared_length` applied to a
4-component array (vector.py is not under src/). -/
def squared_length4 (q : Quat) : ℝ := q.x ^ 2 + q.y ^ 2 + q.z ^ 2 + q.w ^ 2

/-- Modelled from the spec: `vector.length` applied to a 4-component
array (vector.py is not under src/). -/
def length4 (q : Quat) : ℝ := Real.sqrt (squared_length4 q)

/-- Modelled from the spec: `vector.normalise` — the vector divided by
its Euclidean length (vector.py is not under src/). -/
def normalise (v : Vec3) : Vec3 :=
  ⟨v.x / length v, v.y / length v, v.z / length v⟩

/-- Modelled from the spec: `numpy.linalg.norm(axis, ord=None)` on a
1-D array — the Euclidean length, as used by
quaternion.create_from_axis_rotation. -/
def npNorm (v : Vec3) : ℝ := Real.sqrt (v.x ^ 2 + v.y ^ 2 + v.z ^ 2)

end vector

namespace quaternion

/-- quaternion.create. -/
def create (x y z w : ℝ) : Quat := ⟨x, y, z, w⟩

/-- quaternion.create_from_axis_rotation.  The source guards with
`assert (numpy.linalg.norm(axis) - 1.0) < 0.01` — note: no absolute
value around the difference — and otherwise returns
(axis * sin(theta/2), cos(theta/2)). -/
def create_from_axis_rotation (axis : Vec3) (theta : ℝ) : Except PyError Quat :=
  if vector.npNorm axis - 1.0 < 0.01 then
    let thetaOver2 := theta * 0.5
    let sinThetaOver2 := Real.sin thetaOver2
    .ok ⟨axis.x * sinThetaOver2, axis.y * sinThetaOver2, axis.z * sinThetaOver2,
      Real.cos thetaOver2⟩
  else
    .error .assertionError

/-- quaternion.cross: the source's component formulas, verbatim. -/
def cross (quat1 quat2 : Quat) : Quat :=
  ⟨(quat1.w * quat2.x) + (quat1.x * quat2.w) + (quat1.z * quat2.y) - (quat1.y * quat2.z),
   (quat1.w * quat2.y) + (quat1.y * quat2.w) + (quat1.x * quat2.z) - (quat1.z * quat2.x),
   (quat1.w * quat2.z) + (quat1.z * quat2.w) + (quat1.y * quat2.x) - (quat1.x * quat2.y),
   (quat1.w * quat2.w) - (quat1.x * quat2.x) - (quat1.y * quat2.y) - (quat1.z * quat2.z)⟩

/-- quaternion.squared_length, delegating to vector.squared_length. -/
def squared_length (quat : Quat) : ℝ := vector.squared_length4 quat

/-- quaternion.conjugate: invert x, y, z and leave w as is. -/
def conjugate (quat : Quat) : Quat := ⟨-quat.x, -quat.y, -quat.z, quat.w⟩

/-- quaternion.inverse: conjugate divided (componentwise, numpy `/`)
by the squared length. -/
def inverse (quat : Quat) : Quat :=
  let c := conjugate quat
  let s := squared_length quat
  ⟨c.x / s, c.y / s, c.z / s, c.w / s⟩

/-- quaternion.get_rotation_axis.  When `1 - w^2 <= 0` the source
executes `assert False` (raising AssertionError); the default-axis code
after the assert is dead and references an undefined name `out`.
Otherwise it returns (x, y, z) scaled by `1 / sqrt(1 - w^2)`. -/
def get_rotation_axis (quat : Quat) : Except PyError Vec3 :=
  let sinThetaOver2Sq := 1.0 - quat.w ^ 2
  if sinThetaOver2Sq ≤ 0.0 then
    .error .assertionError
  else
    let oneOverSinThetaOver2 := 1.0 / Real.sqrt sinThetaOver2Sq
    .ok ⟨quat.x * oneOverSinThetaOver2, quat.y * oneOverSinThetaOver2,
      quat.z * oneOverSinThetaOver2⟩

/-- quaternion.power.  The guard reads `quat[ w ]`; the module binds only
`index.w`, not a bare `w`, so in Python every call raises NameError
before any arithmetic — we embed the evidently intended `index.w`
reading, under which the near-identity branch executes `assert False`
(AssertionError; the code after it writes to an undefined name `out`).
The non-degenerate branch scales x, y, z by sin(alpha*exponent)/sin(alpha)
and sets w = cos(alpha*exponent) with alpha = acos(w). -/
def power (quat : Quat) (exponent : ℝ) : Except PyError Quat :=
  if 0.9999 < |quat.w| then
    .error .assertionError
  else
    let alpha := Real.arccos quat.w
    let newAlpha := alpha * exponent
    let multi := Real.sin newAlpha / Real.sin alpha
    .ok ⟨quat.x * multi, quat.y * multi, quat.z * multi, Real.cos newAlpha⟩

/-- quaternion.apply_to_vector, the `vec.size == 3` branch (a 4-vector is
routed through the same helper on its first three components, and any
other size raises ValueError).  The helper records the vector's length,
normalises it, lifts it to a zero-scalar quaternion, computes
`cross(quat, cross(vec_quat, conjugate(quat)))` and returns the first
three components rescaled by the original length. -/
def apply_to_vector (quat : Quat) (vec3 : Vec3) : Vec3 :=
  let length := vector.length vec3
  let nvec := vector.normalise vec3
  let vec_quat : Quat := ⟨nvec.x, nvec.y, nvec.z, 0⟩
  let result := cross quat (cross vec_quat (conjugate quat))
  ⟨result.x * length, result.y * length, result.z * length⟩

end quaternion

namespace aambb

/-- numpy.vstack: stacks the arrays contained in its single sequence
argument.  Each call in aambb.py instead passes several arrays as
separate positional arguments, which raises TypeError.  An argument is
modelled as the list of (3,)-rows it contributes after atleast_2d. -/
def vstack (args : List (List Vec3)) : Except PyError (List Vec3) :=
  match args with
  | [tup] => .ok tup
  | _ => .error .typeError

/-- numpy.amax(..., axis=0): the componentwise maximum over the rows;
on an empty array numpy raises ValueError. -/
def amax (points : List Vec3) : Except PyError Vec3 :=
  match points with
  | [] => .error .valueError
  | p :: rest => .ok (rest.foldl vmax p)

/-- The symmetric box `[(-length, -length, -length), (length, length,
length)]` that every AAMBB constructor writes into its output buffer. -/
def symBox (length : ℝ) : Aabb :=
  ⟨⟨-length, -length, -length⟩, ⟨length, length, length⟩⟩

/-- aambb.create_from_points.  Takes the componentwise maximum of the
absolute values of the points, its Euclidean length `r`, and writes
`[(-r,-r,-r),(r,r,r)]` into the output buffer (a fresh `numpy.empty` one
when `out` is None).  The function body has no return statement, so the
Python return value is None either way; the result pair is (return
value, final contents of the written buffer). -/
def create_from_points (points : List Vec3) (out : Option Aabb) :
    Except PyError (Option Aabb × Aabb) := do
  let abs_points := points.map vabs
  let vec ← amax abs_points
  let length := vector.length vec
  pure (none, symBox length)

/-- aambb.create_from_bounds: calls `numpy.vstack( min, max )` — two
positional arguments — so the call raises TypeError before
create_from_points is reached. -/
def create_from_bounds (mn mx : Vec3) (out : Option Aabb) :
    Except PyError (Option Aabb × Aabb) := do
  let bounds ← vstack [[mn], [mx]]
  create_from_points bounds out

/-- aambb.create_from_aabbs: reshapes the boxes into a flat list of
corner points and delegates to create_from_points. -/
def create_from_aabbs (aabbs : List Aabb) (out : Option Aabb) :
    Except PyError (Option Aabb × Aabb) :=
  create_from_points (aabbs.flatMap (fun b => [b.lo, b.hi])) out

/-- aambb.add_points: calls `numpy.vstack( points, aabb[0], aabb[1] )` —
three positional arguments — so the call raises TypeError; the intended
reduction over the points together with the box's own corners (and the
missing return statement) is embedded after the vstack for fidelity. -/
def add_points (aabb : Aabb) (points : List Vec3) (out : Option Aabb) :
    Except PyError (Option Aabb × Aabb) := do
  let values ← vstack [points, [aabb.lo], [aabb.hi]]
  let abs_points := values.map vabs
  let vec ← amax abs_points
  let length := vector.length vec
  pure (none, symBox length)

/-- aambb.add_aabbs: reshapes the boxes into corner points and delegates
to add_points (which raises TypeError on its vstack call). -/
def add_aabbs (aabb : Aabb) (aabbs : List Aabb) (out : Option Aabb) :
    Except PyError (Option Aabb × Aabb) :=
  add_points aabb (aabbs.flatMap (fun b => [b.lo, b.hi])) out

/-- aambb.centre_point: `(aabb[0] + aabb[1]) * 0.5`. -/
def centre_point (aabb : Aabb) : Vec3 := vsmul (vadd aabb.lo aabb.hi) 0.5

/-- aambb.minimum. -/
def minimum (aabb : Aabb) : Vec3 := aabb.lo

/-- aambb.maximum. -/
def maximum (aabb : Aabb) : Vec3 := aabb.hi

end aambb

namespace geometric_tests

/-- Modelled from the spec: one axis of the slab method of
`geometric_tests.ray_intersect_aabb` (geometric_tests.py is not under
src/; only its tests are).  For a zero direction component the axis is
non-constraining (inner `none`) when the origin lies within the slab and
otherwise there is no intersection (outer `none`); for a non-zero
component the axis contributes the ordered parametric interval. -/
def slabAxis (o d lo hi : ℝ) : Option (Option (ℝ × ℝ)) :=
  if d = 0 then
    if lo ≤ o ∧ o ≤ hi then some none else none
  else
    some (some (min ((lo - o) / d) ((hi - o) / d),
                max ((lo - o) / d) ((hi - o) / d)))

/-- Modelled from the spec: the overall `[t_enter, t_exit]` interval of
the slab method — the intersection of the per-axis intervals.  `none`
when some axis rules out an intersection; `some none` when no axis
constrains the ray (possible only for a zero direction, which violates
the ray invariant). -/
def slabInterval (r : Ray) (b : Aabb) : Option (Option (ℝ × ℝ)) := do
  let ax ← slabAxis r.origin.x r.direction.x b.lo.x b.hi.x
  let ay ← slabAxis r.origin.y r.direction.y b.lo.y b.hi.y
  let az ← slabAxis r.origin.z r.direction.z b.lo.z b.hi.z
  match ([ax, ay, az].filterMap id) with
  | [] => pure none
  | i :: rest =>
    pure (some (rest.foldl (fun acc p => (max acc.1 p.1, min acc.2 p.2)) i))

/-- Modelled from the spec: `geometric_tests.ray_intersect_aabb`
(geometric_tests.py is not under src/).  No intersection when
`t_enter > t_exit` or `t_exit < 0`; the exit point
`origin + t_exit * direction` when `t_enter < 0` (origin inside the
box); the entry point otherwise. -/
def ray_intersect_aabb (r : Ray) (b : Aabb) : Option Vec3 :=
  match slabInterval r b with
  | none => none
  | some none => none
  | some (some (tEnter, tExit)) =>
    if tEnter > tExit ∨ tExit < 0 then none
    else if tEnter < 0 then some (vadd r.origin (vsmul r.direction tExit))
    else some (vadd r.origin (vsmul r.direction tEnter))

end geometric_tests

/-! ## Helper lemmas shared by the claim theorems -/

theorem squared_length4_cross (a b : Quat) :
    vector.squared_length4 (quaternion.cross a b) =
      vector.squared_length4 a * vector.squared_length4 b := by
  simp only [vector.squared_length4, quaternion.cross]
  ring

theorem squared_length4_conjugate (q : Quat) :
    vector.squared_length4 (quaternion.conjugate q) = vector.squared_length4 q := by
  simp only [vector.squared_length4, quaternion.conjugate]
  ring

theorem sandwich_w_zero (q u : Quat) (hu : u.w = 0) :
    (quaternion.cross q (quaternion.cross u (quaternion.conjugate q))).w = 0 := by
  simp only [quaternion.cross, quaternion.conjugate, hu]
  ring

/-! ## Claim theorems -/

/-- C9: quaternion.conjugate is an involution; it keeps the w-component
and negates x, y and z. -/
theorem c9_conjugate_involution (q : Quat) :
    quaternion.conjugate (quaternion.conjugate q) = q ∧
    (quaternion.conjugate q).w = q.w ∧
    (quaternion.conjugate q).x = -q.x ∧
    (quaternion.conjugate q).y = -q.y ∧
    (quaternion.conjugate q).z = -q.z := by
  refine ⟨?_, rfl, rfl, rfl, rfl⟩
  simp [quaternion.conjugate]

/-- C1: evaluating aambb.create_from_points at the point set
[(1, 2, 2)] with no output buffer.  The written buffer holds the claimed
box [(-3,-3,-3),(3,3,3)] (r = |(1,2,2)| = 3), but the Python return
value is None — the function has no return statement — so the result is
not returned as a new value. -/
theorem c1_create_from_points_returns_none :
    aambb.create_from_points [⟨1, 2, 2⟩] none =
      .ok (none, aambb.symBox 3) := by
  have habs : vabs ⟨1, 2, 2⟩ = ⟨1, 2, 2⟩ := by
    show (⟨|(1:ℝ)|, |(2:ℝ)|, |(2:ℝ)|⟩ : Vec3) = ⟨1, 2, 2⟩
    rw [abs_of_nonneg (by norm_num : (0:ℝ) ≤ 1),
      abs_of_nonneg (by norm_num : (0:ℝ) ≤ 2)]
  have hlen : vector.length ⟨1, 2, 2⟩ = 3 := by
    show Real.sqrt ((1:ℝ) ^ 2 + 2 ^ 2 + 2 ^ 2) = 3
    rw [show ((1:ℝ) ^ 2 + 2 ^ 2 + 2 ^ 2) = 3 ^ 2 by norm_num,
      Real.sqrt_sq (by norm_num)]
  show (pure (none, aambb.symBox (vector.length (vabs ⟨1, 2, 2⟩))) :
      Except PyError (Option Aabb × Aabb)) = .ok (none, aambb.symBox 3)
  rw [habs, hlen]
  rfl

/-- C3: evaluating quaternion.power at the identity quaternion
(0, 0, 0, 1) with exponent 2: the near-identity branch raises
AssertionError instead of returning the quaternion unchanged. -/
theorem c3_power_identity_raises :
    quaternion.power ⟨0, 0, 0, 1⟩ 2 = .error .assertionError := by
  rw [quaternion.power, if_pos]
  norm_num

/-- C4: evaluating quaternion.get_rotation_axis at the identity
quaternion (0, 0, 0, 1), where 1 - w^2 = 0: the degenerate branch raises
AssertionError instead of returning the default axis (0, 0, -1). -/
theorem c4_get_rotation_axis_identity_raises :
    quaternion.get_rotation_axis ⟨0, 0, 0, 1⟩ = .error .assertionError := by
  rw [quaternion.get_rotation_axis]
  norm_num

/-- C5: the axis (0.5, 0, 0) has length 0.5, which differs from 1.0 by
far more than 0.01, yet quaternion.create_from_axis_rotation accepts it
and silently returns a quaternion (the assert compares the signed
difference, not its absolute value, so short axes pass). -/
theorem c5_short_axis_accepted :
    0.01 ≤ |vector.npNorm ⟨0.5, 0, 0⟩ - 1.0| ∧
    quaternion.create_from_axis_rotation ⟨0.5, 0, 0⟩ 0 = .ok ⟨0, 0, 0, 1⟩ := by
  have hn : vector.npNorm ⟨0.5, 0, 0⟩ = 0.5 := by
    show Real.sqrt ((0.5:ℝ) ^ 2 + 0 ^ 2 + 0 ^ 2) = 0.5
    rw [show ((0.5:ℝ) ^ 2 + 0 ^ 2 + 0 ^ 2) = 0.5 ^ 2 by norm_num,
      Real.sqrt_sq (by norm_num)]
  constructor
  · rw [hn, show (0.5:ℝ) - 1.0 = -0.5 by norm_num, abs_neg,
      abs_of_nonneg (by norm_num : (0:ℝ) ≤ 0.5)]
    norm_num
  · rw [quaternion.create_from_axis_rotation, if_pos (by rw [hn]; norm_num)]
    norm_num

/-- C8: evaluating aambb.add_points and aambb.add_aabbs on a unit box:
both raise TypeError (numpy.vstack is called with three positional
arguments instead of one sequence), so no grown box is ever produced. -/
theorem c8_add_points_raises_type_error :
    aambb.add_points ⟨⟨-1, -1, -1⟩, ⟨1, 1, 1⟩⟩ [⟨2, 0, 0⟩] none =
      .error .typeError ∧
    aambb.add_aabbs ⟨⟨-1, -1, -1⟩, ⟨1, 1, 1⟩⟩ [⟨⟨-2, -2, -2⟩, ⟨2, 2, 2⟩⟩] none =
      .error .typeError :=
  ⟨rfl, rfl⟩

/-- C6: for every non-zero quaternion q, the Hamilton product
quaternion.cross of q with quaternion.inverse q is the identity
quaternion (0, 0, 0, 1), in exact real arithmetic. -/
theorem c6_cross_inverse_identity (q : Quat) (hq : q ≠ ⟨0, 0, 0, 0⟩) :
    quaternion.cross q (quaternion.inverse q) = ⟨0, 0, 0, 1⟩ := by
  have hs : q.x ^ 2 + q.y ^ 2 + q.z ^ 2 + q.w ^ 2 ≠ 0 := by
    intro h
    apply hq
    have hx : q.x ^ 2 = 0 := by
      nlinarith [sq_nonneg q.x, sq_nonneg q.y, sq_nonneg q.z, sq_nonneg q.w]
    have hy : q.y ^ 2 = 0 := by
      nlinarith [sq_nonneg q.x, sq_nonneg q.y, sq_nonneg q.z, sq_nonneg q.w]
    have hz : q.z ^ 2 = 0 := by
      nlinarith [sq_nonneg q.x, sq_nonneg q.y, sq_nonneg q.z, sq_nonneg q.w]
    have hw : q.w ^ 2 = 0 := by
      nlinarith [sq_nonneg q.x, sq_nonneg q.y, sq_nonneg q.z, sq_nonneg q.w]
    rw [sq_eq_zero_iff] at hx hy hz hw
    cases q
    simp_all
  simp only [quaternion.cross, quaternion.inverse, quaternion.conjugate,
    quaternion.squared_length, vector.squared_length4]
  rw [Quat.mk.injEq]
  refine ⟨?_, ?_, ?_, ?_⟩ <;> field_simp <;> ring

/-- C6 witness: the theorem applied at the concrete non-zero quaternion
(1, 2, 3, 4). -/
theorem c6_cross_inverse_identity_witness :
    (⟨1, 2, 3, 4⟩ : Quat) ≠ ⟨0, 0, 0, 0⟩ ∧
    quaternion.cross ⟨1, 2, 3, 4⟩ (quaternion.inverse ⟨1, 2, 3, 4⟩) =
      ⟨0, 0, 0, 1⟩ := by
  have h : (⟨1, 2, 3, 4⟩ : Quat) ≠ ⟨0, 0, 0, 0⟩ := by
    intro h
    rw [Quat.mk.injEq] at h
    norm_num at h
  exact ⟨h, c6_cross_inverse_identity ⟨1, 2, 3, 4⟩ h⟩

/-- C7: every box an AAMBB operation actually writes has centre point
(0, 0, 0) exactly: create_from_points and create_from_aabbs (on a
non-empty input) write a symmetric box whose minimum corner is the exact
negation of its maximum corner, and the remaining three operations
(create_from_bounds, add_points, add_aabbs) raise TypeError on their
numpy.vstack call and so never produce a box at all. -/
theorem c7_centre_point_origin :
    (∀ (p : Vec3) (ps : List Vec3) (out : Option Aabb), ∃ L : ℝ,
      aambb.create_from_points (p :: ps) out = .ok (none, aambb.symBox L) ∧
      aambb.centre_point (aambb.symBox L) = ⟨0, 0, 0⟩) ∧
    (∀ (b : Aabb) (bs : List Aabb) (out : Option Aabb), ∃ L : ℝ,
      aambb.create_from_aabbs (b :: bs) out = .ok (none, aambb.symBox L) ∧
      aambb.centre_point (aambb.symBox L) = ⟨0, 0, 0⟩) ∧
    (∀ (mn mx : Vec3) (out : Option Aabb),
      aambb.create_from_bounds mn mx out = .error .typeError) ∧
    (∀ (b : Aabb) (ps : List Vec3) (out : Option Aabb),
      aambb.add_points b ps out = .error .typeError) ∧
    (∀ (b : Aabb) (bs : List Aabb) (out : Option Aabb),
      aambb.add_aabbs b bs out = .error .typeError) := by
  have hsym : ∀ L : ℝ, aambb.centre_point (aambb.symBox L) = ⟨0, 0, 0⟩ := by
    intro L
    simp only [aambb.centre_point, aambb.symBox, vadd, vsmul]
    rw [Vec3.mk.injEq]
    refine ⟨?_, ?_, ?_⟩ <;> ring
  exact ⟨fun p ps out => ⟨_, rfl, hsym _⟩,
    fun b bs out => ⟨_, rfl, hsym _⟩,
    fun mn mx out => rfl, fun b ps out => rfl, fun b bs out => rfl⟩

/-- C2: whenever the slab method yields an overall interval with
t_enter < 0 (ray origin inside the box) and a non-negative t_exit,
ray_intersect_aabb returns the exit point origin + t_exit * direction;
in particular, for the AABB [(-1,-1,-1),(1,1,1)] and the ray with origin
(0.5, 0.5, 0) and direction (0, 0, -1) it returns (0.5, 0.5, -1). -/
theorem c2_ray_inside_returns_exit_point :
    (∀ (r : Ray) (b : Aabb) (te tx : ℝ),
      geometric_tests.slabInterval r b = some (some (te, tx)) →
      te < 0 → 0 ≤ tx →
      geometric_tests.ray_intersect_aabb r b =
        some (vadd r.origin (vsmul r.direction tx))) ∧
    geometric_tests.ray_intersect_aabb
        ⟨⟨0.5, 0.5, 0⟩, ⟨0, 0, -1⟩⟩ ⟨⟨-1, -1, -1⟩, ⟨1, 1, 1⟩⟩ =
      some ⟨0.5, 0.5, -1⟩ := by
  have hgen : ∀ (r : Ray) (b : Aabb) (te tx : ℝ),
      geometric_tests.slabInterval r b = some (some (te, tx)) →
      te < 0 → 0 ≤ tx →
      geometric_tests.ray_intersect_aabb r b =
        some (vadd r.origin (vsmul r.direction tx)) := by
    intro r b te tx h hte htx
    rw [geometric_tests.ray_intersect_aabb, h]
    show (if te > tx ∨ tx < 0 then none
      else if te < 0 then some (vadd r.origin (vsmul r.direction tx))
      else some (vadd r.origin (vsmul r.direction te))) =
        some (vadd r.origin (vsmul r.direction tx))
    rw [if_neg (by push_neg; exact ⟨by linarith, htx⟩), if_pos hte]
  refine ⟨hgen, ?_⟩
  have hax : geometric_tests.slabAxis (0.5:ℝ) 0 (-1) 1 = some none := by
    rw [geometric_tests.slabAxis, if_pos rfl, if_pos (by norm_num)]
  have haz : geometric_tests.slabAxis (0:ℝ) (-1) (-1) 1 = some (some (-1, 1)) := by
    rw [geometric_tests.slabAxis, if_neg (by norm_num)]
    norm_num [min_def, max_def]
  have hslab : geometric_tests.slabInterval
      ⟨⟨0.5, 0.5, 0⟩, ⟨0, 0, -1⟩⟩ ⟨⟨-1, -1, -1⟩, ⟨1, 1, 1⟩⟩ =
      some (some (-1, 1)) := by
    rw [geometric_tests.slabInterval]
    simp only [hax, haz]
    rfl
  rw [hgen _ _ (-1) 1 hslab (by norm_num) (by norm_num)]
  simp only [vadd, vsmul, Option.some.injEq, Vec3.mk.injEq]
  norm_num

/-- C10: for every unit-length quaternion q and non-zero vector v,
quaternion.apply_to_vector preserves the Euclidean length of v exactly
(exact real arithmetic): the vector is normalised before the sandwich
product and the result rescaled by the original length. -/
theorem c10_apply_to_vector_preserves_length (q : Quat) (v : Vec3)
    (hq : vector.length4 q = 1) (hv : v ≠ ⟨0, 0, 0⟩) :
    vector.length (quaternion.apply_to_vector q v) = vector.length v := by
  have hSpos : 0 < v.x ^ 2 + v.y ^ 2 + v.z ^ 2 := by
    rcases lt_or_eq_of_le (by positivity : (0:ℝ) ≤ v.x ^ 2 + v.y ^ 2 + v.z ^ 2)
      with h | h
    · exact h
    · exfalso
      apply hv
      have hx : v.x ^ 2 = 0 := by nlinarith [sq_nonneg v.y, sq_nonneg v.z]
      have hy : v.y ^ 2 = 0 := by nlinarith [sq_nonneg v.x, sq_nonneg v.z]
      have hz : v.z ^ 2 = 0 := by nlinarith [sq_nonneg v.x, sq_nonneg v.y]
      rw [sq_eq_zero_iff] at hx hy hz
      obtain ⟨a, b, c⟩ := v
      rw [Vec3.mk.injEq]
      exact ⟨hx, hy, hz⟩
  have hL : 0 < vector.length v := Real.sqrt_pos.mpr hSpos
  have hL2 : vector.length v ^ 2 = v.x ^ 2 + v.y ^ 2 + v.z ^ 2 :=
    Real.sq_sqrt hSpos.le
  have hQ : vector.squared_length4 q = 1 := by
    have h1 : Real.sqrt (vector.squared_length4 q) ^ 2 =
        vector.squared_length4 q :=
      Real.sq_sqrt (by
        show (0:ℝ) ≤ q.x ^ 2 + q.y ^ 2 + q.z ^ 2 + q.w ^ 2
        positivity)
    rw [show Real.sqrt (vector.squared_length4 q) = vector.length4 q from rfl,
      hq] at h1
    simpa using h1.symm
  have hu1 : vector.squared_length4
      ⟨(vector.normalise v).x, (vector.normalise v).y, (vector.normalise v).z, 0⟩
      = 1 := by
    show (v.x / vector.length v) ^ 2 + (v.y / vector.length v) ^ 2 +
      (v.z / vector.length v) ^ 2 + (0:ℝ) ^ 2 = 1
    field_simp
    linear_combination -hL2
  have hr1 : vector.squared_length4
      (quaternion.cross q (quaternion.cross
        ⟨(vector.normalise v).x, (vector.normalise v).y, (vector.normalise v).z, 0⟩
        (quaternion.conjugate q))) = 1 := by
    rw [squared_length4_cross, squared_length4_cross, squared_length4_conjugate,
      hQ, hu1]
    ring
  have hrw : (quaternion.cross q (quaternion.cross
      ⟨(vector.normalise v).x, (vector.normalise v).y, (vector.normalise v).z, 0⟩
      (quaternion.conjugate q))).w = 0 :=
    sandwich_w_zero q _ rfl
  set rq := quaternion.cross q (quaternion.cross
    ⟨(vector.normalise v).x, (vector.normalise v).y, (vector.normalise v).z, 0⟩
    (quaternion.conjugate q)) with hrq
  have hxyz : rq.x ^ 2 + rq.y ^ 2 + rq.z ^ 2 = 1 := by
    have h1 : rq.x ^ 2 + rq.y ^ 2 + rq.z ^ 2 + rq.w ^ 2 = 1 := hr1
    rw [hrw] at h1
    linarith [h1]
  have happ : quaternion.apply_to_vector q v =
      ⟨rq.x * vector.length v, rq.y * vector.length v, rq.z * vector.length v⟩ :=
    rfl
  rw [happ]
  show Real.sqrt ((rq.x * vector.length v) ^ 2 + (rq.y * vector.length v) ^ 2 +
    (rq.z * vector.length v) ^ 2) = vector.length v
  rw [show (rq.x * vector.length v) ^ 2 + (rq.y * vector.length v) ^ 2 +
      (rq.z * vector.length v) ^ 2 = vector.length v ^ 2 from by
    linear_combination (vector.length v ^ 2) * hxyz]
  exact Real.sqrt_sq hL.le

/-- C10 witness: the theorem applied at the unit quaternion (0, 0, 0, 1)
and the non-zero vector (3, 4, 0). -/
theorem c10_apply_to_vector_preserves_length_witness :
    vector.length4 ⟨0, 0, 0, 1⟩ = 1 ∧ (⟨3, 4, 0⟩ : Vec3) ≠ ⟨0, 0, 0⟩ ∧
    vector.length (quaternion.apply_to_vector ⟨0, 0, 0, 1⟩ ⟨3, 4, 0⟩) =
      vector.length ⟨3, 4, 0⟩ := by
  have h1 : vector.length4 ⟨0, 0, 0, 1⟩ = 1 := by
    show Real.sqrt ((0:ℝ) ^ 2 + 0 ^ 2 + 0 ^ 2 + 1 ^ 2) = 1
    rw [show ((0:ℝ) ^ 2 + 0 ^ 2 + 0 ^ 2 + 1 ^ 2) = 1 ^ 2 by norm_num,
      Real.sqrt_sq (by norm_num)]
  have h2 : (⟨3, 4, 0⟩ : Vec3) ≠ ⟨0, 0, 0⟩ := by
    intro h
    rw [Vec3.mk.injEq] at h
    norm_num at h
  exact ⟨h1, h2, c10_apply_to_vector_preserves_length ⟨0, 0, 0, 1⟩ ⟨3, 4, 0⟩ h1 h2⟩

/-- C2 witness: the general exit-point convention of the theorem applied
at the concrete inside-origin ray of the reference test. -/
theorem c2_ray_inside_returns_exit_point_witness :
    geometric_tests.slabInterval
        ⟨⟨0.5, 0.5, 0⟩, ⟨0, 0, -1⟩⟩ ⟨⟨-1, -1, -1⟩, ⟨1, 1, 1⟩⟩ =
      some (some (-1, 1)) ∧
    geometric_tests.ray_intersect_aabb
        ⟨⟨0.5, 0.5, 0⟩, ⟨0, 0, -1⟩⟩ ⟨⟨-1, -1, -1⟩, ⟨1, 1, 1⟩⟩ =
      some (vadd ⟨0.5, 0.5, 0⟩ (vsmul ⟨0, 0, -1⟩ 1)) := by
  have hax : geometric_tests.slabAxis (0.5:ℝ) 0 (-1) 1 = some none := by
    rw [geometric_tests.slabAxis, if_pos rfl, if_pos (by norm_num)]
  have haz : geometric_tests.slabAxis (0:ℝ) (-1) (-1) 1 = some (some (-1, 1)) := by
    rw [geometric_tests.slabAxis, if_neg (by norm_num)]
    norm_num [min_def, max_def]
  have hslab : geometric_tests.slabInterval
      ⟨⟨0.5, 0.5, 0⟩, ⟨0, 0, -1⟩⟩ ⟨⟨-1, -1, -1⟩, ⟨1, 1, 1⟩⟩ =
      some (some (-1, 1)) := by
    rw [geometric_tests.slabInterval]
    simp only [hax, haz]
    rfl
  exact ⟨hslab, c2_ray_inside_returns_exit_point.1 _ _ (-1) 1 hslab
    (by norm_num) (by norm_num)⟩
